import Mathlib

/-!
# Verification of the chrono_gpst conversion library

Shallow embedding of `src/lib.rs` of the `chrono_gpst` crate.

Conventions of the embedding:
* Rust `i64` values are `Int`; `i64` addition and subtraction wrap on
  overflow (release-mode semantics), modelled by `wrap64`; `i64` division
  by a positive constant truncates toward zero, modelled by `Int.tdiv`.
* Rust `f64` values are modelled as exact rationals (`ℚ`).  Every claim
  settled below either holds in this idealisation and in IEEE `f64`
  arithmetic alike (the concrete values involved are exactly
  representable), or is refuted at inputs where the `f64` computation is
  exact, so the idealisation is faithful where it is used.
* The Rust cast `as i64` applied to an `f64` saturates at the `i64`
  bounds and truncates toward zero: `satCastI64`.
* `chrono::DateTime<Utc>` is an opaque instant; the library only uses its
  nanosecond timestamp, its construction from a nanosecond timestamp, and
  a textual rendering, so it is embedded as a record holding the
  nanosecond timestamp (`DateTimeUtc`).  `timestamp_nanos_opt` succeeds
  exactly when the timestamp fits in `i64`, and `from_timestamp_nanos`
  accepts every `i64`, as in chrono.  The rendering is embedded as
  `toString` of the timestamp; no claim depends on its exact text.
-/

/-- Lower bound of `i64`, that is `-(2 ^ 63)`. -/
def I64_MIN : Int := -9223372036854775808

/-- Upper bound of `i64`, that is `2 ^ 63 - 1`. -/
def I64_MAX : Int := 9223372036854775807

/-- Wrapping (release-mode) `i64` arithmetic: reduce into the `i64` range
modulo `2 ^ 64`. -/
def wrap64 (x : Int) : Int :=
  (x + 9223372036854775808) % 18446744073709551616 - 9223372036854775808

/-- Truncation of a rational toward zero, as the `f64` to `i64` cast does. -/
def ratTrunc (q : ℚ) : Int := q.num.tdiv q.den

/-- Rust `as i64` on an `f64` value: saturating cast, truncating toward zero. -/
def satCastI64 (q : ℚ) : Int :=
  if ratTrunc q < I64_MIN then I64_MIN
  else if I64_MAX < ratTrunc q then I64_MAX
  else ratTrunc q

/-- Embedding of `chrono::DateTime<Utc>`: the instant reduced to its
nanosecond timestamp since the Unix Epoch (the only capability the
library uses). -/
structure DateTimeUtc where
  timestamp_nanos : Int
deriving DecidableEq

/-- `DateTime::timestamp_nanos_opt`: the timestamp when it fits in `i64`. -/
def timestamp_nanos_opt (t : DateTimeUtc) : Option Int :=
  if I64_MIN ≤ t.timestamp_nanos ∧ t.timestamp_nanos ≤ I64_MAX then
    some t.timestamp_nanos
  else none

/-- `DateTime::from_timestamp_nanos`: total on `i64` inputs. -/
def from_timestamp_nanos (n : Int) : DateTimeUtc := ⟨n⟩

/-- `DateTime::to_rfc3339`, abstracted: some textual rendering of the
instant; claims depend only on its existence, not its format. -/
def to_rfc3339 (t : DateTimeUtc) : String := toString t.timestamp_nanos

/-- `TO_NANO_INT` from src/lib.rs line 49. -/
def TO_NANO_INT : Int := 1000000000

/-- `GPS_EPOCH` from src/lib.rs line 48: the GPS Epoch as a nanosecond
timestamp since the Unix Epoch. -/
def GPS_EPOCH : Int := 315964800 * TO_NANO_INT

/-- `TO_NANO_FLOAT` from src/lib.rs line 50. -/
def TO_NANO_FLOAT : ℚ := 1000000000

/-- `SECONDS_PER_WEEK` from src/lib.rs line 51. -/
def SECONDS_PER_WEEK : ℚ := 604800

/-- `NANOSECONDS_PER_WEEK` from src/lib.rs line 52. -/
def NANOSECONDS_PER_WEEK : ℚ := SECONDS_PER_WEEK * TO_NANO_FLOAT

/-- `Gpst` from src/lib.rs lines 56-63. -/
structure Gpst where
  seconds : ℚ
  week : Int
  week_seconds : ℚ
deriving DecidableEq

/-- `GpstError` from src/lib.rs lines 38-45. -/
inductive GpstError where
  | BeforeGPSEpoch (msg : String)
  | TimestampNano (msg : String)
deriving DecidableEq

instance {ε α : Type} [DecidableEq ε] [DecidableEq α] :
    DecidableEq (Except ε α) := fun x y =>
  match x, y with
  | .error a, .error b =>
    if h : a = b then .isTrue (by rw [h]) else .isFalse (by simp [h])
  | .error _, .ok _ => .isFalse (by simp)
  | .ok _, .error _ => .isFalse (by simp)
  | .ok a, .ok b =>
    if h : a = b then .isTrue (by rw [h]) else .isFalse (by simp [h])

/-- `LEAP_SECONDS` from src/lib.rs lines 121-125: leap-second instants in
seconds since the GPS Epoch. -/
def LEAP_SECONDS : List Int :=
  [46828800, 78364801, 109900802, 173059203, 252028804, 315187205,
   346723206, 393984007, 425520008, 457056009, 504489610, 551750411,
   599184012, 820108813, 914803214, 1025136015, 1119744016, 1167264017]

/-- `num_leaps` from src/lib.rs lines 128-137: the `for` loop over the
table, adding `TO_NANO_INT` for every entry whose nanosecond value is
strictly below the argument. -/
def num_leaps (gps_nanoseconds : Int) : Int :=
  LEAP_SECONDS.foldl
    (fun count leap_second =>
      if leap_second * TO_NANO_INT < gps_nanoseconds then count + TO_NANO_INT
      else count)
    0

/-- `from_gpst_seconds` from src/lib.rs lines 101-108.  The final
`nanoseconds + GPS_EPOCH` is an `i64` addition, hence wrapping; likewise
the leap subtraction. -/
def from_gpst_seconds (seconds : ℚ) (leap_seconds : Bool) :
    Except GpstError DateTimeUtc :=
  let nanoseconds := satCastI64 (seconds * TO_NANO_FLOAT)
  let nanoseconds' :=
    if leap_seconds then wrap64 (nanoseconds - num_leaps nanoseconds)
    else nanoseconds
  Except.ok (from_timestamp_nanos (wrap64 (nanoseconds' + GPS_EPOCH)))

/-- `from_gpst` from src/lib.rs lines 111-118. -/
def from_gpst (week : Int) (week_seconds : ℚ) (leap_seconds : Bool) :
    Except GpstError DateTimeUtc :=
  let gps_seconds := (week : ℚ) * SECONDS_PER_WEEK + week_seconds
  from_gpst_seconds gps_seconds leap_seconds

/-- `GpstLike::gpst for DateTime<Utc>` from src/lib.rs lines 72-97.

Note on lines 80-82 of the source: the statement
`if nanoseconds < 0 { GpstError::BeforeGPSEpoch(self.to_rfc3339()); }`
constructs the error value and immediately discards it — there is no
`return`, so the function falls through and keeps computing.  The
embedding therefore has no before-epoch branch, faithfully to the code. -/
def gpst (t : DateTimeUtc) (leap_seconds : Bool) : Except GpstError Gpst :=
  match timestamp_nanos_opt t with
  | none => Except.error (GpstError.TimestampNano (to_rfc3339 t))
  | some timestamp_nanos =>
    let nanoseconds0 := wrap64 (timestamp_nanos - GPS_EPOCH)
    let nanoseconds :=
      if leap_seconds then wrap64 (nanoseconds0 + num_leaps nanoseconds0)
      else nanoseconds0
    let week := satCastI64 ((nanoseconds : ℚ) / NANOSECONDS_PER_WEEK)
    match from_gpst week 0 leap_seconds with
    | Except.error e => Except.error e
    | Except.ok week_start =>
      match timestamp_nanos_opt week_start with
      | none =>
        Except.error (GpstError.TimestampNano
          ("Week Start: " ++ to_rfc3339 week_start))
      | some week_start_timestamp_nanos =>
        Except.ok
          { seconds := ((nanoseconds.tdiv TO_NANO_INT : Int) : ℚ)
            week := week
            week_seconds :=
              ((wrap64 (timestamp_nanos - week_start_timestamp_nanos) : Int) : ℚ)
                / TO_NANO_FLOAT }

unseal Rat.mul Rat.inv Rat.add Rat.sub

/-! ## Arithmetic helper lemmas -/

theorem wrap64_eq_of_range {x : Int}
    (h1 : -9223372036854775808 ≤ x) (h2 : x < 9223372036854775808) :
    wrap64 x = x := by
  unfold wrap64
  rw [Int.emod_eq_of_lt (by omega) (by omega)]
  omega

theorem wrap64_range (x : Int) :
    -9223372036854775808 ≤ wrap64 x ∧ wrap64 x < 9223372036854775808 := by
  unfold wrap64
  have h1 : 0 ≤ (x + 9223372036854775808) % 18446744073709551616 :=
    Int.emod_nonneg _ (by norm_num)
  have h2 : (x + 9223372036854775808) % 18446744073709551616 <
      18446744073709551616 :=
    Int.emod_lt_of_pos _ (by norm_num)
  omega

theorem ratTrunc_intCast (n : Int) : ratTrunc (n : ℚ) = n := by
  unfold ratTrunc
  rw [Rat.num_intCast, Rat.den_intCast]
  simp

theorem ratTrunc_eq_floor_of_nonneg {q : ℚ} (h : 0 ≤ q) : ratTrunc q = ⌊q⌋ := by
  unfold ratTrunc
  rw [Rat.floor_def]
  exact Int.tdiv_eq_ediv (Rat.num_nonneg.mpr h) (by positivity)

theorem floor_intCast_div (a b : Int) (hb : 0 < b) :
    ⌊(a : ℚ) / (b : ℚ)⌋ = a / b := by
  have h : ((b.toNat : ℕ) : ℤ) = b := Int.toNat_of_nonneg hb.le
  have h2 : ((b.toNat : ℕ) : ℚ) = (b : ℚ) := by exact_mod_cast h
  rw [← h2, Rat.floor_intCast_div_natCast, h]

theorem satCastI64_intCast (n : Int) (h1 : I64_MIN ≤ n) (h2 : n ≤ I64_MAX) :
    satCastI64 (n : ℚ) = n := by
  unfold satCastI64
  unfold I64_MIN I64_MAX at *
  rw [ratTrunc_intCast]
  rw [if_neg (by omega), if_neg (by omega)]

theorem satCastI64_div (a b : Int) (ha : 0 ≤ a) (hb : 0 < b)
    (h : a / b ≤ I64_MAX) : satCastI64 ((a : ℚ) / (b : ℚ)) = a / b := by
  have hq : (0 : ℚ) ≤ (a : ℚ) / (b : ℚ) :=
    div_nonneg (by exact_mod_cast ha) (by exact_mod_cast hb.le)
  have ht : ratTrunc ((a : ℚ) / (b : ℚ)) = a / b := by
    rw [ratTrunc_eq_floor_of_nonneg hq, floor_intCast_div a b hb]
  have hdnn : 0 ≤ a / b := Int.ediv_nonneg ha hb.le
  unfold satCastI64
  unfold I64_MIN I64_MAX at *
  rw [ht, if_neg (by omega), if_neg (by omega)]

/-! ## Characterisation of num_leaps -/

theorem leapFold_eq (l : List Int) (x : Int) (acc : Int) :
    l.foldl
      (fun count leap_second =>
        if leap_second * TO_NANO_INT < x then count + TO_NANO_INT else count)
      acc
      = acc + TO_NANO_INT *
          ((l.filter (fun e => decide (e * TO_NANO_INT < x))).length : Int) := by
  induction l generalizing acc with
  | nil => simp
  | cons e t ih =>
    simp only [List.foldl_cons, List.filter_cons]
    by_cases h : e * TO_NANO_INT < x
    · rw [if_pos h, ih]
      simp [h]
      ring
    · rw [if_neg h, ih]
      simp [h]

theorem num_leaps_eq (x : Int) :
    num_leaps x = TO_NANO_INT *
      ((LEAP_SECONDS.filter (fun e => decide (e * TO_NANO_INT < x))).length : Int) := by
  unfold num_leaps
  rw [leapFold_eq]
  ring

theorem num_leaps_nonneg (x : Int) : 0 ≤ num_leaps x := by
  rw [num_leaps_eq]
  have : (0 : Int) ≤ TO_NANO_INT := by norm_num [TO_NANO_INT]
  positivity

theorem num_leaps_le (x : Int) : num_leaps x ≤ 18 * TO_NANO_INT := by
  rw [num_leaps_eq]
  have h1 : ((LEAP_SECONDS.filter
      (fun e => decide (e * TO_NANO_INT < x))).length) ≤ LEAP_SECONDS.length :=
    List.length_filter_le _ _
  have h2 : LEAP_SECONDS.length = 18 := by rfl
  rw [h2] at h1
  calc TO_NANO_INT *
      ((LEAP_SECONDS.filter (fun e => decide (e * TO_NANO_INT < x))).length : Int)
      ≤ TO_NANO_INT * 18 := by
        apply mul_le_mul_of_nonneg_left _ (by norm_num [TO_NANO_INT])
        exact_mod_cast h1
    _ = 18 * TO_NANO_INT := by ring

theorem num_leaps_mono {x y : Int} (h : x ≤ y) : num_leaps x ≤ num_leaps y := by
  rw [num_leaps_eq, num_leaps_eq]
  have hlen : ∀ l : List Int,
      (l.filter (fun e => decide (e * TO_NANO_INT < x))).length ≤
        (l.filter (fun e => decide (e * TO_NANO_INT < y))).length := by
    intro l
    induction l with
    | nil => simp
    | cons e t ih =>
      simp only [List.filter_cons]
      by_cases hx : e * TO_NANO_INT < x
      · have hy : e * TO_NANO_INT < y := lt_of_lt_of_le hx h
        simp [hx, hy]
        omega
      · by_cases hy : e * TO_NANO_INT < y
        · simp [hx, hy]
          omega
        · simp [hx, hy]
          exact ih
  have hK : (0 : Int) < TO_NANO_INT := by norm_num [TO_NANO_INT]
  have := hlen LEAP_SECONDS
  exact mul_le_mul_of_nonneg_left (by exact_mod_cast this) hK.le

theorem num_leaps_intScale (s : Int) :
    num_leaps (s * TO_NANO_INT) =
      TO_NANO_INT * ((LEAP_SECONDS.filter (fun e => decide (e < s))).length : Int) := by
  rw [num_leaps_eq]
  have : LEAP_SECONDS.filter (fun e => decide (e * TO_NANO_INT < s * TO_NANO_INT)) =
      LEAP_SECONDS.filter (fun e => decide (e < s)) := by
    apply List.filter_congr
    intro e _
    have hK : (0 : Int) < TO_NANO_INT := by norm_num [TO_NANO_INT]
    simp only [decide_eq_decide]
    exact mul_lt_mul_right hK
  rw [this]

/-! ## Evaluation lemmas for the conversion functions -/

/-- Evaluation of `from_gpst_seconds` when the argument times `10 ^ 9` is an
integer `n` in a range where the `i64` cast does not saturate and the `i64`
additions do not wrap. -/
theorem from_gpst_seconds_eval (q : ℚ) (n : Int) (f : Bool)
    (hq : q * TO_NANO_FLOAT = (n : ℚ)) (hn0 : 0 ≤ n)
    (hn1 : n ≤ 8 * 10 ^ 18) :
    from_gpst_seconds q f =
      Except.ok ⟨n - (if f then num_leaps n else 0) + GPS_EPOCH⟩ := by
  have hL0 := num_leaps_nonneg n
  have hL18 := num_leaps_le n
  have hK : TO_NANO_INT = 1000000000 := rfl
  have hE : GPS_EPOCH = 315964800000000000 := rfl
  rw [hK] at hL18
  unfold from_gpst_seconds
  rw [hq, satCastI64_intCast n (by unfold I64_MIN; omega) (by unfold I64_MAX; omega)]
  cases f
  · simp only [Bool.false_eq_true, if_false]
    rw [hE, wrap64_eq_of_range (by omega) (by omega)]
    simp [from_timestamp_nanos, hE]
  · simp only [if_true]
    rw [hE, @wrap64_eq_of_range (n - num_leaps n) (by omega) (by omega),
      wrap64_eq_of_range (by omega) (by omega)]
    simp [from_timestamp_nanos, hE]

/-- Evaluation of `from_gpst` at the start of week `w` (week seconds zero),
as `gpst` uses it internally. -/
theorem from_gpst_week_start (w : Int) (f : Bool) (hw0 : 0 ≤ w)
    (hw1 : w ≤ 10 ^ 4) :
    from_gpst w 0 f =
      Except.ok ⟨w * 604800000000000 -
        (if f then num_leaps (w * 604800000000000) else 0) + GPS_EPOCH⟩ := by
  unfold from_gpst
  exact from_gpst_seconds_eval _ (w * 604800000000000) f
    (by push_cast [SECONDS_PER_WEEK, TO_NANO_FLOAT]; ring)
    (by positivity) (by nlinarith)

/-- Evaluation of `gpst` on an instant at or after the GPS Epoch and at most
`2 * 10 ^ 18` nanoseconds after the Unix Epoch (about year 2033): the
`i64` cast does not saturate and no `i64` operation wraps.  Here `d` is
the raw delta, `a` the leap-adjusted delta and `w` the computed week. -/
theorem gpst_eval (T d a w : Int) (f : Bool)
    (hd : d = T - GPS_EPOCH)
    (ha : a = d + (if f then num_leaps d else 0))
    (hw : w = a / 604800000000000)
    (h0 : GPS_EPOCH ≤ T) (h1 : T ≤ 2 * 10 ^ 18) :
    gpst ⟨T⟩ f =
      Except.ok
        { seconds := ((a.tdiv TO_NANO_INT : Int) : ℚ)
          week := w
          week_seconds :=
            ((d + (if f then num_leaps (w * 604800000000000) else 0)
                - w * 604800000000000 : Int) : ℚ) / TO_NANO_FLOAT } := by
  have hK : TO_NANO_INT = 1000000000 := rfl
  have hE : GPS_EPOCH = 315964800000000000 := rfl
  have hLb : ∀ x : Int, 0 ≤ (if f then num_leaps x else 0) ∧
      (if f then num_leaps x else 0) ≤ 18000000000 := by
    intro x
    cases f
    · simp
    · have hle := num_leaps_le x
      rw [hK] at hle
      simpa using ⟨num_leaps_nonneg x, hle⟩
  have hLd := hLb d
  have hd0 : 0 ≤ d := by omega
  have ha0 : 0 ≤ a := by omega
  have ha1 : a ≤ 2 * 10 ^ 18 := by omega
  have hw0 : 0 ≤ w := hw ▸ Int.ediv_nonneg ha0 (by norm_num)
  have hwmulLe : w * 604800000000000 ≤ a := hw ▸ Int.ediv_mul_le a (by norm_num)
  have hw4 : w ≤ 10 ^ 4 := by omega
  have hLw := hLb (w * 604800000000000)
  have hTn : timestamp_nanos_opt ⟨T⟩ = some T := by
    unfold timestamp_nanos_opt I64_MIN I64_MAX
    dsimp only
    rw [if_pos (by constructor <;> omega)]
  have h_1 : wrap64 (T - GPS_EPOCH) = d := by
    rw [wrap64_eq_of_range (by omega) (by omega)]
    omega
  have h_2 : (if f then wrap64 (d + num_leaps d) else d) = a := by
    cases f
    · simpa using (by simpa using ha.symm)
    · simp only [if_true]
      simp only [if_true] at ha
      rw [wrap64_eq_of_range (by omega) (by omega)]
      omega
  have hNW : NANOSECONDS_PER_WEEK = ((604800000000000 : Int) : ℚ) := by
    norm_num [NANOSECONDS_PER_WEEK, SECONDS_PER_WEEK, TO_NANO_FLOAT]
  have h_3 : satCastI64 ((a : ℚ) / NANOSECONDS_PER_WEEK) = w := by
    rw [hNW, satCastI64_div a 604800000000000 ha0 (by norm_num)
      (by unfold I64_MAX; omega), ← hw]
  have h_4 := from_gpst_week_start w f hw0 (by omega)
  have h_5 : timestamp_nanos_opt
      ⟨w * 604800000000000 -
        (if f then num_leaps (w * 604800000000000) else 0) + GPS_EPOCH⟩ =
      some (w * 604800000000000 -
        (if f then num_leaps (w * 604800000000000) else 0) + GPS_EPOCH) := by
    unfold timestamp_nanos_opt I64_MIN I64_MAX
    dsimp only
    rw [if_pos (by constructor <;> omega)]
  have h_6 : wrap64 (T - (w * 604800000000000 -
      (if f then num_leaps (w * 604800000000000) else 0) + GPS_EPOCH)) =
      d + (if f then num_leaps (w * 604800000000000) else 0)
        - w * 604800000000000 := by
    rw [wrap64_eq_of_range (by omega) (by omega)]
    omega
  simp only [gpst, hTn, h_1, h_2, h_3, h_4, h_5, h_6]

/-! ## Claims -/

/-- Claim C1 (code-bug evaluation): converting the UTC instant with
nanosecond timestamp 0 (1970-01-01T00:00:00Z, strictly before the GPS
Epoch) with the leap flag false does NOT return a BeforeGPSEpoch error:
src/lib.rs line 81 constructs the error and immediately discards it, so
the conversion succeeds with a negative seconds field (and negative week
and week_seconds), contradicting the claim. -/
theorem claim_C1 :
    gpst ⟨0⟩ false = Except.ok ⟨-315964800, -522, -259200⟩ ∧
      (-315964800 : ℚ) < 0 := by
  constructor
  · decide
  · norm_num

/-- Claim C2 (counterexample): the leap comparison in num_leaps is strict,
not inclusive.  At the input exactly equal to the first leap-table entry
scaled to nanoseconds, the code counts 0 entries, while the inclusive
rule of the claim would count that entry (yielding one second worth of
nanoseconds, 10^9). -/
theorem claim_C2_counterexample :
    num_leaps (46828800 * TO_NANO_INT) = 0 ∧
      TO_NANO_INT * ((LEAP_SECONDS.filter
        (fun e => decide (e * TO_NANO_INT ≤ 46828800 * TO_NANO_INT))).length : Int)
        = 1000000000 := by
  constructor
  · decide
  · decide

/-- Claim C2 (amended): num_leaps x equals 10^9 times the number of
leap-table entries e with e * 10^9 strictly below x: the bound is strict,
so an input exactly equal to a scaled entry excludes that entry. -/
theorem claim_C2 (x : Int) :
    num_leaps x = TO_NANO_INT *
      ((LEAP_SECONDS.filter (fun e => decide (e * TO_NANO_INT < x))).length : Int) :=
  num_leaps_eq x

/-- Claim C5 (counterexample): at input 2^60 seconds the computed
nanosecond value 2^60 * 10^9 exceeds I64_MAX, so the underlying instant
type cannot represent it; from_gpst_seconds nevertheless returns Ok (the
float-to-i64 cast saturates and the epoch addition wraps), not a
conversion error. -/
theorem claim_C5_counterexample :
    from_gpst_seconds 1152921504606846976 false =
        Except.ok ⟨-8907407236854775809⟩ ∧
      I64_MAX < 1152921504606846976 * 1000000000 := by
  constructor
  · decide
  · decide

/-- Claim C5 (amended): from_gpst_seconds never returns an error: every
input yields Ok.  Out-of-range computed values are clamped by the
saturating cast and wrapped by the i64 epoch addition rather than
reported; there is no panic and no error path in the function. -/
theorem claim_C5 (seconds : ℚ) (leap_seconds : Bool) :
    ∃ t : DateTimeUtc, from_gpst_seconds seconds leap_seconds = Except.ok t :=
  ⟨_, rfl⟩

/-- Claim C7: from_gpst computes week * 604800 + week_seconds and
delegates to from_gpst_seconds with the same leap flag; week_seconds is
not validated, so a value outside [0, 604800) is accepted and simply
shifts the total, as the second conjunct shows. -/
theorem claim_C7 :
    (∀ (week : Int) (week_seconds : ℚ) (f : Bool),
        from_gpst week week_seconds f =
          from_gpst_seconds ((week : ℚ) * 604800 + week_seconds) f) ∧
      ∀ (week : Int) (week_seconds : ℚ) (f : Bool),
        from_gpst week week_seconds f =
          from_gpst (week + 1) (week_seconds - 604800) f := by
  constructor
  · intro w ws f
    unfold from_gpst SECONDS_PER_WEEK
    rfl
  · intro w ws f
    unfold from_gpst
    have harg : ((w : ℚ)) * SECONDS_PER_WEEK + ws =
        ((w + 1 : Int) : ℚ) * SECONDS_PER_WEEK + (ws - 604800) := by
      push_cast [SECONDS_PER_WEEK]
      ring
    rw [harg]

/-- Claim C8: num_leaps is monotone; it is non-negative and bounded by
the table length 18 in units of whole leap seconds, that is by
18 * 10^9 in the nanosecond units num_leaps returns. -/
theorem claim_C8 :
    (∀ x y : Int, x ≤ y → num_leaps x ≤ num_leaps y) ∧
      ∀ x : Int, 0 ≤ num_leaps x ∧ num_leaps x ≤ 18 * TO_NANO_INT :=
  ⟨fun _ _ h => num_leaps_mono h,
   fun x => ⟨num_leaps_nonneg x, num_leaps_le x⟩⟩

/-- Witness for claim C8 at concrete inputs. -/
theorem claim_C8_witness :
    num_leaps 46828800000000000 ≤ num_leaps 1167264017000000001 ∧
      0 ≤ num_leaps 1167264017000000001 ∧
      num_leaps 1167264017000000001 ≤ 18 * TO_NANO_INT :=
  ⟨claim_C8.1 46828800000000000 1167264017000000001 (by decide),
   (claim_C8.2 1167264017000000001).1, (claim_C8.2 1167264017000000001).2⟩

/-- Claim C9: the instant exactly at the GPS Epoch
(1980-01-06T00:00:00Z, nanosecond timestamp 315964800 * 10^9) with the
leap flag false converts to seconds 0, week 0, week_seconds 0. -/
theorem claim_C9 :
    gpst ⟨315964800000000000⟩ false = Except.ok ⟨0, 0, 0⟩ := by decide

/-- Claim C6 (counterexample): at input exactly equal to the first
leap-table entry, 46828800 seconds, with the leap flag true, the
inclusive rule of the claim would subtract one leap second and yield
GPS_EPOCH + (46828800 - 1) seconds; the code counts strictly, subtracts
nothing, and returns GPS_EPOCH + 46828800 seconds. -/
theorem claim_C6_counterexample :
    from_gpst_seconds 46828800 true = Except.ok ⟨362793600000000000⟩ ∧
      from_gpst_seconds 46828800 true ≠
        Except.ok ⟨GPS_EPOCH + (46828800 - 1) * TO_NANO_INT⟩ := by
  constructor
  · decide
  · decide

/-- Claim C6 (amended): for every integer seconds value s in
[0, 4 * 10^9], with the leap flag true from_gpst_seconds computes the
leap count from s by the same strict table rule as the forward
conversion (entries strictly below s are counted), subtracts it, and
reconstructs the instant GPS_EPOCH + (s - leap_count) (in nanoseconds);
with the flag false the reconstruction is GPS_EPOCH + s. -/
theorem claim_C6 (s : Int) (h0 : 0 ≤ s) (h1 : s ≤ 4 * 10 ^ 9) :
    from_gpst_seconds (s : ℚ) true =
        Except.ok ⟨GPS_EPOCH +
          (s - ((LEAP_SECONDS.filter (fun e => decide (e < s))).length : Int))
            * TO_NANO_INT⟩ ∧
      from_gpst_seconds (s : ℚ) false =
        Except.ok ⟨GPS_EPOCH + s * TO_NANO_INT⟩ := by
  have hK : TO_NANO_INT = 1000000000 := rfl
  have hscale := num_leaps_intScale s
  rw [hK] at hscale
  have e1 := from_gpst_seconds_eval (s : ℚ) (s * 1000000000) true
    (by push_cast [TO_NANO_FLOAT]; ring) (by positivity) (by omega)
  have e2 := from_gpst_seconds_eval (s : ℚ) (s * 1000000000) false
    (by push_cast [TO_NANO_FLOAT]; ring) (by positivity) (by omega)
  rw [if_pos rfl, hscale] at e1
  rw [if_neg Bool.false_ne_true] at e2
  constructor
  · rw [e1]
    congr 2
    rw [hK]
    ring
  · rw [e2]
    congr 2
    rw [hK]
    ring

/-- Witness for claim C6 at the concrete input 46828801 seconds (one
second past the first leap-table entry, whose strict count is 1). -/
theorem claim_C6_witness :
    (from_gpst_seconds ((46828801 : Int) : ℚ) true =
        Except.ok ⟨GPS_EPOCH +
          (46828801 - ((LEAP_SECONDS.filter
            (fun e => decide (e < (46828801 : Int)))).length : Int))
            * TO_NANO_INT⟩ ∧
      from_gpst_seconds ((46828801 : Int) : ℚ) false =
        Except.ok ⟨GPS_EPOCH + 46828801 * TO_NANO_INT⟩) :=
  claim_C6 46828801 (by decide) (by decide)

/-- Auxiliary: `from_gpst` has no error path: it always returns Ok. -/
theorem from_gpst_isOk (week : Int) (week_seconds : ℚ) (f : Bool) :
    ∃ u : DateTimeUtc, from_gpst week week_seconds f = Except.ok u :=
  ⟨_, rfl⟩

/-- Claim C10: every successful gpst conversion carries a whole-number
seconds field (the nanosecond delta is divided by 10^9 with integer
truncation, discarding any sub-second part), while week_seconds is an
integer number of nanoseconds divided by 10^9, retaining
nanosecond-resolution fractional precision. -/
theorem claim_C10 (t : DateTimeUtc) (f : Bool) (g : Gpst)
    (h : gpst t f = Except.ok g) :
    (∃ n : Int, g.seconds = (n : ℚ)) ∧
      ∃ m : Int, g.week_seconds = (m : ℚ) / TO_NANO_FLOAT := by
  unfold gpst at h
  cases hOpt : timestamp_nanos_opt t with
  | none => rw [hOpt] at h; simp at h
  | some T =>
    rw [hOpt] at h
    dsimp only at h
    obtain ⟨u, hu⟩ := from_gpst_isOk
      (satCastI64
        ((((if f then
              wrap64 (wrap64 (T - GPS_EPOCH) + num_leaps (wrap64 (T - GPS_EPOCH)))
            else wrap64 (T - GPS_EPOCH)) : Int) : ℚ) / NANOSECONDS_PER_WEEK))
      0 f
    rw [hu] at h
    dsimp only at h
    cases hOpt2 : timestamp_nanos_opt u with
    | none => rw [hOpt2] at h; simp at h
    | some W2 =>
      rw [hOpt2] at h
      simp only [Except.ok.injEq] at h
      subst h
      exact ⟨⟨_, rfl⟩, ⟨_, rfl⟩⟩

/-- Witness for claim C10: half a second past the GPS Epoch, leap flag
false; seconds is the whole number 0 and week_seconds is
500000000 nanoseconds, that is one half. -/
theorem claim_C10_witness :
    (∃ n : Int, (Gpst.mk 0 0 (1 / 2)).seconds = (n : ℚ)) ∧
      ∃ m : Int, (Gpst.mk 0 0 (1 / 2)).week_seconds = (m : ℚ) / TO_NANO_FLOAT :=
  claim_C10 ⟨315964800500000000⟩ false ⟨0, 0, 1 / 2⟩ (by decide)

/-- Claim C4 (counterexample): half a second past the GPS Epoch (leap
flag false) converts successfully to seconds 0, week 0, week_seconds
one half: the truncated seconds field drops the sub-second part that
week_seconds keeps, so week * 604800 + week_seconds is 1/2 while seconds
is 0. -/
theorem claim_C4_counterexample :
    gpst ⟨315964800500000000⟩ false = Except.ok ⟨0, 0, 1 / 2⟩ ∧
      ¬ (((Gpst.mk 0 0 (1 / 2)).week : ℚ) * 604800 +
          (Gpst.mk 0 0 (1 / 2)).week_seconds = (Gpst.mk 0 0 (1 / 2)).seconds) := by
  constructor
  · decide
  · decide

/-- Claim C4 (amended): for every successful gpst conversion of an
instant in the GPS era whose leap-adjusted delta is a whole number of
seconds, and such that (when the leap flag is set) the leap count at the
computed week start equals the leap count at the raw delta, the
decomposition week * 604800 + week_seconds = seconds holds exactly.
(The counterexample forces the whole-second restriction; instants with a
leap insertion between the week start and the instant shift week_seconds
without shifting seconds, forcing the stability condition.) -/
theorem claim_C4 (T d a w : Int) (f : Bool) (g : Gpst)
    (hd : d = T - GPS_EPOCH)
    (ha : a = d + (if f then num_leaps d else 0))
    (hw : w = a / 604800000000000)
    (h0 : GPS_EPOCH ≤ T) (h1 : T ≤ 2 * 10 ^ 18)
    (hdiv : a % 1000000000 = 0)
    (hstable : (if f then num_leaps (w * 604800000000000) else 0) =
      (if f then num_leaps d else 0))
    (hg : gpst ⟨T⟩ f = Except.ok g) :
    (g.week : ℚ) * 604800 + g.week_seconds = g.seconds := by
  rw [gpst_eval T d a w f hd ha hw h0 h1] at hg
  simp only [Except.ok.injEq] at hg
  subst hg
  dsimp only
  rw [hstable]
  have hdvd : (1000000000 : Int) ∣ a := Int.dvd_of_emod_eq_zero hdiv
  have hK : TO_NANO_INT = 1000000000 := rfl
  have htdiv : a.tdiv TO_NANO_INT = a / 1000000000 := by
    rw [hK]
    exact Int.tdiv_eq_ediv_of_dvd hdvd
  rw [htdiv]
  have hfac : a / 1000000000 * 1000000000 = a := Int.ediv_mul_cancel hdvd
  have hfacQ : ((a / 1000000000 : Int) : ℚ) * 1000000000 = (a : ℚ) := by
    exact_mod_cast congrArg (fun z : Int => (z : ℚ)) hfac
  have haQ : ((d + (if f then num_leaps d else 0) : Int) : ℚ) = (a : ℚ) := by
    exact_mod_cast congrArg (fun z : Int => (z : ℚ)) ha.symm
  simp only [TO_NANO_FLOAT]
  push_cast
  push_cast at haQ
  field_simp
  linarith [hfacQ, haQ]

/-- Witness for claim C4 at the crate test vector 2005-01-28T13:30:00Z
(timestamp 1106919000 seconds) with leap adjustment: the conversion
yields seconds 790954213, week 1307, week_seconds 480613, and
1307 * 604800 + 480613 = 790954213. -/
theorem claim_C4_witness :
    ((Gpst.mk 790954213 1307 480613).week : ℚ) * 604800 +
        (Gpst.mk 790954213 1307 480613).week_seconds =
      (Gpst.mk 790954213 1307 480613).seconds :=
  claim_C4 1106919000000000000 790954200000000000 790954213000000000 1307
    true ⟨790954213, 1307, 480613⟩ (by decide) (by decide) (by decide)
    (by decide) (by decide) (by decide) (by decide) (by decide)

/-- Claim C3 (counterexample): the round trip fails at the instant
exactly one leap-table entry past the GPS Epoch in the second week of
July 1982 (timestamp 394329601 seconds, which is GPS_EPOCH + 78364801
seconds, the second leap entry), with the leap flag true: converting to
GPST and back through week and week_seconds loses one second. -/
theorem claim_C3_counterexample :
    gpst ⟨394329601000000000⟩ true = Except.ok ⟨78364802, 129, 345602⟩ ∧
      from_gpst 129 345602 true = Except.ok ⟨394329600000000000⟩ ∧
      (394329600000000000 : Int) ≠ 394329601000000000 := by
  refine ⟨by decide, by decide, by decide⟩

/-- Claim C3 (amended): the round trip from an instant through gpst and
back through from_gpst with the same leap flag reconstructs the instant
exactly, provided the instant is in the GPS era at a whole second, and
(when the leap flag is set) the leap count is stable across the
reconstruction: counting leaps at the week-start-adjusted value gives
the same count as at the computed week start.  (The counterexample
forces the stability condition: in the one-second window after a leap
insertion the inverse subtracts one leap too many.) -/
theorem claim_C3 (T d a w : Int) (f : Bool) (g : Gpst)
    (hd : d = T - GPS_EPOCH)
    (ha : a = d + (if f then num_leaps d else 0))
    (hw : w = a / 604800000000000)
    (h0 : GPS_EPOCH ≤ T) (h1 : T ≤ 2 * 10 ^ 18)
    (hsec : d % 1000000000 = 0)
    (hstable : (if f then
        num_leaps (d + (if f then num_leaps (w * 604800000000000) else 0))
      else 0) = (if f then num_leaps (w * 604800000000000) else 0))
    (hg : gpst ⟨T⟩ f = Except.ok g) :
    from_gpst g.week g.week_seconds f = Except.ok ⟨T⟩ := by
  rw [gpst_eval T d a w f hd ha hw h0 h1] at hg
  simp only [Except.ok.injEq] at hg
  subst hg
  dsimp only
  unfold from_gpst
  have hE : GPS_EPOCH = 315964800000000000 := rfl
  have hd0 : 0 ≤ d := by omega
  have hLw : 0 ≤ (if f then num_leaps (w * 604800000000000) else 0) ∧
      (if f then num_leaps (w * 604800000000000) else 0) ≤ 18000000000 := by
    cases f
    · simp
    · have hle := num_leaps_le (w * 604800000000000)
      have hnn := num_leaps_nonneg (w * 604800000000000)
      have hK : TO_NANO_INT = 1000000000 := rfl
      rw [hK] at hle
      simpa using ⟨hnn, hle⟩
  have heval := from_gpst_seconds_eval
    ((w : ℚ) * SECONDS_PER_WEEK +
      ((d + (if f then num_leaps (w * 604800000000000) else 0)
        - w * 604800000000000 : Int) : ℚ) / TO_NANO_FLOAT)
    (d + (if f then num_leaps (w * 604800000000000) else 0)) f
    (by push_cast [SECONDS_PER_WEEK, TO_NANO_FLOAT]; field_simp; ring)
    (by omega) (by omega)
  rw [heval, hstable]
  congr 2
  omega

/-- Witness for claim C3 at the crate test vector 2005-01-28T13:30:00Z
with leap adjustment: feeding week 1307 and week_seconds 480613 back
through from_gpst reconstructs the original instant exactly. -/
theorem claim_C3_witness :
    from_gpst (Gpst.mk 790954213 1307 480613).week
        (Gpst.mk 790954213 1307 480613).week_seconds true =
      Except.ok ⟨1106919000000000000⟩ :=
  claim_C3 1106919000000000000 790954200000000000 790954213000000000 1307
    true ⟨790954213, 1307, 480613⟩ (by decide) (by decide) (by decide)
    (by decide) (by decide) (by decide) (by decide) (by decide)
